import Mathlib

/-!
Verification of the hardware-detection core of `xpec.py`.

The Python source is shallowly embedded: pure string/number helpers are
translated to executable Lean functions on `String` / `List Char` / `ℤ` / `ℚ`
(Python floats produced by parsing decimal literals and by exact division are
modelled as rationals), and the detection functions, whose effects are OS
queries that can raise, are modelled as functions of the outcome of each
query (`Except`-valued parameters), mirroring the `try`/`except` control flow
of the source line by line.
-/

/-- Python whitespace class for `str.strip` and the regex `\s`
(space, tab, newline, carriage return, form feed, vertical tab). -/
def is_py_space (c : Char) : Bool :=
  c = ' ' ∨ c = '\t' ∨ c = '\n' ∨ c = '\x0d' ∨ c = '\x0c' ∨ c = '\x0b'

/-- Python `str.strip()` on a character list. -/
def py_strip_l (l : List Char) : List Char :=
  ((l.dropWhile is_py_space).reverse.dropWhile is_py_space).reverse

/-- Python `str.strip()`. -/
def py_strip (s : String) : String := String.mk (py_strip_l s.data)

/-- Python `str.upper()` (the strings involved are ASCII). -/
def py_upper (s : String) : String := String.mk (s.data.map Char.toUpper)

/-- Python `needle in hay` substring test. -/
def substr_l : List Char → List Char → Bool
  | n, [] => n.isEmpty
  | n, c :: cs => List.isPrefixOf n (c :: cs) || substr_l n cs

/-- Python `needle in hay` on strings (case-sensitive containment). -/
def substr (needle hay : String) : Bool := substr_l needle.data hay.data

/-- Python `s.startswith(p)`. -/
def starts_with (s p : String) : Bool := List.isPrefixOf p.data s.data

/-- Python `str.replace(pat, rep)` (single left-to-right pass over
non-overlapping occurrences), fuel-indexed so that it reduces in the kernel;
the fuel is instantiated with the length of the string, which bounds the
number of steps.  All patterns used by the source are non-empty. -/
def py_replace_aux (p r : List Char) : ℕ → List Char → List Char
  | _, [] => []
  | 0, l => l
  | fuel + 1, c :: cs =>
    if List.isPrefixOf p (c :: cs) then
      r ++ py_replace_aux p r fuel (List.drop (p.length - 1) cs)
    else
      c :: py_replace_aux p r fuel cs

/-- Python `s.replace(p, r)` for a non-empty pattern `p`. -/
def py_replace (p r s : List Char) : List Char := py_replace_aux p r s.length s

/-- Case-insensitive character comparison (ASCII). -/
def ci_eq (a b : Char) : Bool := a.toLower = b.toLower

/-- Case-insensitive prefix test used for `re.sub(..., flags=re.I)` with a
literal pattern. -/
def ci_starts : List Char → List Char → Bool
  | [], _ => true
  | _ :: _, [] => false
  | a :: ps, b :: ls => ci_eq a b && ci_starts ps ls

/-- Python `re.sub(pat, "", s, flags=re.I)` for a literal (regex-special-free)
non-empty pattern: removes each non-overlapping occurrence, case-insensitively,
in a single left-to-right pass.  Fuel-indexed like `py_replace_aux`. -/
def py_sub_ci_aux (p : List Char) : ℕ → List Char → List Char
  | _, [] => []
  | 0, l => l
  | fuel + 1, c :: cs =>
    if ci_starts p (c :: cs) then
      py_sub_ci_aux p fuel (List.drop (p.length - 1) cs)
    else
      c :: py_sub_ci_aux p fuel cs

/-- Python `re.sub(p, "", s, flags=re.I)` for a literal non-empty pattern. -/
def py_sub_ci (p s : List Char) : List Char := py_sub_ci_aux p s.length s

/-- Truthiness of an optional string (Python `if x:` for `x: str | None`). -/
def py_truthy_str : Option String → Bool
  | some s => s ≠ ""
  | none => false

/-- Python `x or dflt` for `x : str | None`. -/
def py_or_str (v : Option String) (dflt : String) : String :=
  match v with
  | some s => if s ≠ "" then s else dflt
  | none => dflt

/-- Value of a list of ASCII digits (most significant first), as `int()`. -/
def digits_to_nat (ds : List Char) : ℕ := ds.foldl (fun a c => 10 * a + (c.toNat - 48)) 0

/-- Round half to even of `a / b` (the rounding used by Python's float
formatting, e.g. `f"{x:.1f}"`), for `b > 0`. -/
def rheFrac (a b : ℤ) : ℤ :=
  let f := a / b
  let r := a % b
  if 2 * r < b then f else if b < 2 * r then f + 1 else if f % 2 = 0 then f else f + 1

/-- Round half to even of a rational. -/
def rheQ (q : ℚ) : ℤ := rheFrac q.num (q.den : ℤ)

/-- Number of tenths rendered by `_fmt_gb_from_bytes`: clamp negatives to `0`,
divide by `1024³`, clamp magnitudes under `0.05` to `0`, then round the
GB value to one decimal place (`f"{gb:.1f}"`). -/
def tenths (n : ℤ) : ℤ :=
  let m := if n < 0 then 0 else n
  if 20 * m < 2 ^ 30 then 0 else rheFrac (10 * m) (2 ^ 30)

/-- Rendering of a non-negative number of tenths as `"<int>.<digit>"`. -/
def dec1_string (k : ℤ) : String :=
  toString (k.toNat / 10) ++ "." ++ toString (k.toNat % 10)

/-- `_fmt_gb_from_bytes` (src/xpec.py:648-660) on an integer input:
`int(b)` always succeeds, negatives are clamped to `0`, `gb = n / 1024**3`,
values with `abs(gb) < 0.05` are clamped to `0.0`, result `f"{gb:.1f} GB"`. -/
def fmt_gb_from_bytes (b : ℤ) : String := dec1_string (tenths b) ++ " GB"

/-- One match attempt of the regex `([0-9]+(?:\.[0-9]+)?)\s*GB` (flags=re.I)
at the head of the list: a maximal digit run, an optional `.`-plus-digits
fraction, optional whitespace, then `G`/`g` followed by `B`/`b`; yields the
value of group 1 as an exact rational.  (The regex never needs to backtrack
here: after a maximal digit run the next character is not a digit, so it can
match neither `.`, `\s` nor `G`.) -/
def match_gb_at (cs : List Char) : Option ℚ :=
  let ds := cs.takeWhile Char.isDigit
  if ds.isEmpty then none
  else
    let rest := cs.drop ds.length
    let vr : ℚ × List Char :=
      match rest with
      | '.' :: r2 =>
        let fs := r2.takeWhile Char.isDigit
        if fs.isEmpty then (mkRat (digits_to_nat ds) 1, rest)
        else
          (mkRat (digits_to_nat ds * 10 ^ fs.length + digits_to_nat fs) (10 ^ fs.length),
            r2.drop fs.length)
      | _ => (mkRat (digits_to_nat ds) 1, rest)
    let rest3 := vr.2.dropWhile is_py_space
    match rest3 with
    | g :: b :: _ =>
      if (g = 'G' ∨ g = 'g') ∧ (b = 'B' ∨ b = 'b') then some vr.1 else none
    | _ => none

/-- Leftmost-match search of the regex, as `re.search`: value of the first
position at which `match_gb_at` succeeds, else `0.0`. -/
def scan_gb : List Char → ℚ
  | [] => 0
  | c :: cs =>
    match match_gb_at (c :: cs) with
    | some v => v
    | none => scan_gb cs

/-- `_parse_gb` (src/xpec.py:642-646): `0.0` for falsy input, else the first
match of `([0-9]+(?:\.[0-9]+)?)\s*GB` (case-insensitive) in the text. -/
def parse_gb (s : String) : ℚ := if s = "" then 0 else scan_gb s.data

/-- First run of digits in a string as an `int` (`re.search(r"(\d+)", sp)`),
used by `_summarize_ram` on module speed strings. -/
def first_num_l : List Char → Option ℕ
  | [] => none
  | c :: cs =>
    if c.isDigit then some (digits_to_nat ((c :: cs).takeWhile Char.isDigit))
    else first_num_l cs

/-- First run of digits in a string, as `_summarize_ram` extracts a speed. -/
def first_num (s : String) : Option ℕ := first_num_l s.data

/-- `_short_vendor` (src/xpec.py:616-633). -/
def short_vendor (name : String) : String :=
  let s := py_strip name
  let u := py_upper s
  if substr "MICRO-STAR" u || starts_with u "MSI" || starts_with u "MS-" then "MSI"
  else if substr "ASUSTEK" u || substr "ASUS" u then "ASUS"
  else if substr "GIGABYTE" u then "Gigabyte"
  else if substr "ASROCK" u then "ASRock"
  else if substr "LENOVO" u then "Lenovo"
  else if substr "HEWLETT-PACKARD" u || starts_with u "HP" then "HP"
  else if substr "DELL" u then "Dell"
  else if s ≠ "" then s else "N/A"

/-- `_clean_cpu_model` (src/xpec.py:634-640): falsy input gives "N/A"; else
single-pass removals of `"(R)"`, `"(TM)"`, `"CPU"`, a single-pass replacement
of `"  "` by `" "`, a case-insensitive removal of `"with Radeon Graphics"`,
then `strip()`. -/
def clean_cpu_model (name : String) : String :=
  if name = "" then "N/A"
  else
    let s := name.data
    let s := py_replace "(R)".data [] s
    let s := py_replace "(TM)".data [] s
    let s := py_replace "CPU".data [] s
    let s := py_replace "  ".data " ".data s
    let s := py_sub_ci "with Radeon Graphics".data s
    py_strip (String.mk s)

/-- Exceptions distinguished by the source's `except` clauses. -/
inductive PyExc where
  | fileNotFound
  | permissionDenied
  | other
deriving DecidableEq, Repr

/-- A GPU record as built by `get_gpu_info` (`{"Model": ..., "VRAM": ...}`). -/
structure GpuEntry where
  model : String
  vram : String
deriving DecidableEq, Repr

/-- A `Win32_VideoController` row as consumed by `get_gpu_info`: the `Name`
attribute (`""` models a falsy name) and the `AdapterRAM` attribute
(`none` models a missing/falsy/unparsable attribute, `some r` a value for
which `int()` succeeds). -/
structure WmiAdapter where
  name : String
  adapterRAM : Option ℤ
deriving DecidableEq, Repr

/-- Name matching between a WMI adapter name and an NVML/DXGI entry
(src/xpec.py:330,336): case-sensitive substring containment in either
direction. -/
def gpu_name_match (name : String) (g : GpuEntry) : Bool :=
  substr g.model name || substr name g.model

/-- VRAM selection for one WMI adapter (src/xpec.py:327-347): prefer the
first NVML entry whose name matches, else the first matching DXGI entry,
else a truthy `AdapterRAM` formatted by `_fmt_gb_from_bytes`; `none` if all
fail (rendered as `"N/A"` by the caller). -/
def choose_vram (name : String) (aram : Option ℤ) (nvml dxgi : List GpuEntry) :
    Option String :=
  let v1 : Option String := (nvml.find? (gpu_name_match name)).map (fun g => g.vram)
  let v2 : Option String :=
    if py_truthy_str v1 then v1
    else (dxgi.find? (gpu_name_match name)).map (fun g => g.vram)
  if py_truthy_str v2 then v2
  else
    match aram with
    | some r => if r = 0 then none else some (fmt_gb_from_bytes r)
    | none => none

/-- One iteration of the `Win32_VideoController` loop (src/xpec.py:323-348):
adapters with a falsy name or a name containing `"Microsoft"` are skipped,
the rest yield `{"Model": name, "VRAM": vram or "N/A"}`. -/
def merge_entry (nvml dxgi : List GpuEntry) (a : WmiAdapter) : Option GpuEntry :=
  if a.name = "" || substr "Microsoft" a.name then none
  else some ⟨a.name, py_or_str (choose_vram a.name a.adapterRAM nvml dxgi) "N/A"⟩

/-- Windows branch of `get_gpu_info` (src/xpec.py:319-371) given the DXGI and
NVML lists already collected (their own failures leave those lists empty) and
the outcome of the WMI enumeration: on success the merged per-adapter list is
used if non-empty, else the NVML list, else the DXGI list; if the WMI
enumeration raises, the NVML list is used if non-empty, else the DXGI list. -/
def get_gpu_info_windows (wmiRes : Except PyExc (List WmiAdapter))
    (nvml dxgi : List GpuEntry) : List GpuEntry :=
  match wmiRes with
  | .ok ads =>
    let wl := ads.filterMap (merge_entry nvml dxgi)
    if wl.isEmpty then (if nvml.isEmpty then dxgi else nvml) else wl
  | .error _ => if nvml.isEmpty then dxgi else nvml

/-- Key by which `_choose_primary_gpu` ranks GPUs:
`_parse_gb(g.get("VRAM", "0 GB"))` (the key is always present on records
built by `get_gpu_info`). -/
def gpu_key (g : GpuEntry) : ℚ := parse_gb g.vram

/-- Python's `max(iterable, key=...)` given a first element and the rest:
keeps the current maximum and replaces it only on a strictly greater key, so
ties resolve to the earliest element. -/
def py_max_by (f : GpuEntry → ℚ) (cur : GpuEntry) : List GpuEntry → GpuEntry
  | [] => cur
  | x :: xs => py_max_by f (if f cur < f x then x else cur) xs

/-- `_choose_primary_gpu` (src/xpec.py:820-823). -/
def choose_primary_gpu : List GpuEntry → GpuEntry
  | [] => ⟨"N/A", "N/A"⟩
  | g :: gs => py_max_by gpu_key g gs

/-- A disk record as built by `get_disk_info`
(`{"Model": ..., "Size": ..., "Type": ...}`; `Type` is a Lean keyword, so the
field is named `typ`). -/
structure Disk where
  model : String
  size : String
  typ : String
deriving DecidableEq, Repr

/-- Windows branch of `get_disk_info` (src/xpec.py:393-477).  Each tier is
abstracted by the rows it appends to `disk_info` before finishing or raising
(`d1`/`d2`/`d3`) and by whether it raises (`r1`/`r2`; a tier-3 exception is
swallowed with the rows already appended kept, so `r3` is irrelevant).  The
returned flags record whether control enters tier 2 (the `except` handler of
tier 1) and tier 3 (the trailing `Win32_DiskDrive` block), mirroring the
source: tier 1 `return`s a non-empty list, tier 2 lives inside tier 1's
`except` and `return`s a non-empty accumulated list, tier 3 runs otherwise. -/
def get_disk_info_windows (d1 : List Disk) (r1 : Bool) (d2 : List Disk) (r2 : Bool)
    (d3 : List Disk) : List Disk × Bool × Bool :=
  if r1 = false then
    if d1.isEmpty then (d1 ++ d3, false, true) else (d1, false, false)
  else
    if r2 = false then
      if (d1 ++ d2).isEmpty then (d1 ++ d2 ++ d3, true, true) else (d1 ++ d2, true, false)
    else (d1 ++ d2 ++ d3, true, true)

/-- Python's `sep.join(parts)`. -/
def py_join (sep : String) : List String → String
  | [] => ""
  | x :: xs => xs.foldl (fun acc y => acc ++ sep ++ y) x

/-- `_summarize_storage` (src/xpec.py:825-840): `"N/A"` for an empty list,
else the `", "`-join of per-kind `"<n>x SSD (<total> GB)"` / `"<n>x HDD ..."`
parts, each present only when its partition is non-empty. -/
def summarize_storage (disk_info : List Disk) : String :=
  if disk_info.isEmpty then "N/A"
  else
    let ssd := disk_info.filter (fun d => d.typ = "SSD")
    let hdd := disk_info.filter (fun d => d.typ = "HDD")
    let total_gb : List Disk → ℚ := fun items =>
      items.foldl (fun tot it => tot + parse_gb it.size) 0
    let parts : List String :=
      (if ssd.isEmpty then [] else
        [toString ssd.length ++ "x SSD (" ++ dec1_string (rheQ (mkRat 10 1 * total_gb ssd)) ++ " GB)"])
      ++
      (if hdd.isEmpty then [] else
        [toString hdd.length ++ "x HDD (" ++ dec1_string (rheQ (mkRat 10 1 * total_gb hdd)) ++ " GB)"])
    py_join ", " parts

/-- A RAM module record as built by `get_ram_info`. -/
structure RamModule where
  module : ℕ
  manufacturer : String
  capacity : String
  speed : String
  part : String
deriving DecidableEq, Repr

/-- The `ram_info` dictionary (`"Total RAM"` plus `"Modules"`). -/
structure RamInfo where
  total : String
  modules : List RamModule
deriving DecidableEq, Repr

/-- `_summarize_ram` (src/xpec.py:790-818).  The per-module sizes are the
`_parse_gb` values of the capacity strings; the speeds are the first digit
runs of the speed strings; `len(set(l)) == 1` is rendered as "non-empty and
all elements equal to the head"; Python truthiness of the intermediate
optionals (`if s`, `if per_size:`, `if uniq_speed:`) is the `≠ 0` test on the
carried value. -/
def summarize_ram (r : RamInfo) : String :=
  let total := r.total
  let modules := r.modules
  let count := modules.length
  let sizes : List ℚ := modules.map (fun m => parse_gb m.capacity)
  let speeds : List (Option ℕ) := modules.map (fun m => first_num m.speed)
  let filtered : List ℕ := (speeds.filterMap id).filter (fun s => s ≠ 0)
  let uniq_speed : Option ℕ :=
    match filtered with
    | [] => none
    | s :: rest => if rest.all (fun x => x = s) then some s else none
  let per_size : Option ℚ :=
    if count ≠ 0 ∧ ¬sizes.isEmpty ∧ sizes.all (fun x => 0 < x) then
      match sizes with
      | [] => none
      | x :: rest => if rest.all (fun y => y = x) then some x else none
    else none
  let size_part : List String :=
    if count ≠ 0 then
      [match per_size with
       | some v =>
         if v ≠ 0 then "(" ++ toString count ++ "x" ++ toString (rheQ v) ++ " GB)"
         else "(" ++ toString count ++ " modules)"
       | none => "(" ++ toString count ++ " modules)"]
    else []
  let speed_part : List String :=
    match uniq_speed with
    | some s => if s ≠ 0 then ["@ " ++ toString s ++ " MHz"] else []
    | none => []
  py_join " " (["Total: " ++ total] ++ size_part ++ speed_part)

/-- The placeholder values rejected for `BaseBoardProduct`
(src/xpec.py:75, compared against `product.upper()`). -/
def bad_tokens : List String :=
  ["TO BE FILLED BY O.E.M.", "SYSTEM PRODUCT NAME", "DEFAULT STRING",
   "NOT SPECIFIED", "UNKNOWN", "N/A"]

/-- Hexadecimal digit, case-insensitively (`[0-9A-F]+` with `re.I`). -/
def is_hex_ci (c : Char) : Bool :=
  c.isDigit || ('A' ≤ c ∧ c ≤ 'F') || ('a' ≤ c ∧ c ≤ 'f')

/-- Suffix parser for the pattern `\s*\(MS-[0-9A-F]+\)$` (flags=re.I), on the
reversed character list: closing paren, one or more hex digits, `-`, `S`, `M`
(each case-insensitively), `(`, then any run of whitespace; returns the
reversed remainder on a match. -/
def chip_suffix_parse (r : List Char) : Option (List Char) :=
  match r with
  | ')' :: r1 =>
    let hex := r1.takeWhile is_hex_ci
    if hex.isEmpty then none
    else
      match r1.drop hex.length with
      | '-' :: sc :: mc :: '(' :: r2 =>
        if (sc = 'S' ∨ sc = 's') ∧ (mc = 'M' ∨ mc = 'm') then
          some (r2.dropWhile is_py_space)
        else none
      | _ => none
  | _ => none

/-- `re.sub(r"\s*\(MS-[0-9A-F]+\)$", "", product_pretty, flags=re.I)`
(src/xpec.py:79): removes a trailing parenthesized `MS-<hex>` chipset code
together with the whitespace preceding it. -/
def strip_chipset (s : String) : String :=
  match chip_suffix_parse s.data.reverse with
  | some rest => String.mk rest.reverse
  | none => s

/-- Registry strategy of Windows board detection (src/xpec.py:62-89) given
the raw `BaseBoardManufacturer` / `BaseBoardProduct` values and the optional
`SystemProductName` (whose individual read may fail, yielding `none`):
`product_pretty` keeps the product unless it is empty or a placeholder, in
which case `SystemProductName or ""` is used; the chipset suffix is stripped
from a non-empty `product_pretty`; `mobo_name` is set only when the
manufacturer or the product is non-empty. -/
def registry_mobo (manuRaw productRaw : String) (sysprodRaw : Option String) :
    Option String :=
  let manu := py_strip manuRaw
  let product := py_strip productRaw
  let sysprod := sysprodRaw.map py_strip
  let pretty0 : String :=
    if product ≠ "" ∧ ¬ bad_tokens.contains (py_upper product) then product
    else py_or_str sysprod ""
  let pretty : String := if pretty0 ≠ "" then strip_chipset pretty0 else pretty0
  if manu ≠ "" ∨ product ≠ "" then
    some (py_strip (short_vendor manu ++ " " ++ pretty))
  else none

/-- Windows branch of `get_system_info`'s motherboard detection
(src/xpec.py:55-110): the registry strategy runs first (any exception inside
it is swallowed, leaving `mobo_name = None`), the WMI `Win32_BaseBoard`
strategy runs only if `mobo_name` is still falsy (again swallowing any
exception), and the result falls back to `"N/A"`. -/
def mobo_windows (reg : Except PyExc (String × String × Option String))
    (wmiBB : Except PyExc (String × String)) : String :=
  let m1 : Option String :=
    match reg with
    | .error _ => none
    | .ok (manu, product, sysprod) => registry_mobo manu product sysprod
  let m2 : Option String :=
    if py_truthy_str m1 then m1
    else
      match wmiBB with
      | .error _ => m1
      | .ok (manuRaw, productRaw) =>
        let manu := py_strip manuRaw
        let product := py_strip productRaw
        if manu ≠ "" ∨ product ≠ "" then
          some (py_strip (short_vendor manu ++ " " ++ product))
        else m1
  py_or_str m2 "N/A"

/-- Linux branch of `get_system_info`'s motherboard detection
(src/xpec.py:125-136): reads `board_vendor` then `board_name`; the `except`
clause catches only `FileNotFoundError`, so any other exception (for
example a permission error) propagates out of `get_system_info` — the result
type is therefore `Except`. -/
def mobo_linux (readVendor readName : Except PyExc String) : Except PyExc String :=
  match readVendor with
  | .error .fileNotFound => .ok "N/A"
  | .error e => .error e
  | .ok manuRaw =>
    match readName with
    | .error .fileNotFound => .ok "N/A"
    | .error e => .error e
    | .ok nameRaw => .ok (py_strip (py_strip manuRaw ++ " " ++ py_strip nameRaw))

/-- `get_ram_info` (src/xpec.py:177-244): the total always comes from the
system memory API; the Windows per-module strategy is wrapped in a
catch-all `try`/`except: pass`, so an exception raised mid-loop keeps the
modules appended so far (the error case carries them) and never escapes. -/
def get_ram_info_windows (total_ram : String)
    (modsRes : Except (PyExc × List RamModule) (List RamModule)) : RamInfo :=
  { total := total_ram
    modules :=
      match modsRes with
      | .ok ms => ms
      | .error (_, sofar) => sofar }

/-- A `cpu_info` dictionary as built by `get_cpu_info` (`none` models an
absent key). -/
structure CpuInfo where
  model : Option String
  cores : Option ℕ
  threads : Option ℕ
  maxClock : Option String
deriving DecidableEq, Repr

/-- `get_cpu_info` (src/xpec.py:141-175): the OS-specific strategy (WMI
`Win32_Processor` on Windows, `/proc/cpuinfo` plus psutil on Linux) is
wrapped in a catch-all `try`/`except: pass`, so an exception keeps the fields
assigned before it and never escapes (the nested `MaxClockSpeed` `try` only
ever leaves `maxClock` unset); afterwards, code shared by both OS branches
replaces a falsy model with `platform.processor() or "N/A"`. -/
def get_cpu_info (res : Except (PyExc × CpuInfo) CpuInfo) (procStr : String) : CpuInfo :=
  let ci :=
    match res with
    | .ok c => c
    | .error (_, sofar) => sofar
  if py_truthy_str ci.model then ci
  else { ci with model := some (if procStr ≠ "" then procStr else "N/A") }

/-- Linux branch of `get_ram_info` (src/xpec.py:216-242): the `dmidecode`
text-parsing strategy is wrapped in a catch-all `try`/`except: pass`; an
exception keeps the modules appended before it and never escapes. -/
def get_ram_info_linux (total_ram : String)
    (modsRes : Except (PyExc × List RamModule) (List RamModule)) : RamInfo :=
  { total := total_ram
    modules :=
      match modsRes with
      | .ok ms => ms
      | .error (_, sofar) => sofar }

/-- Linux branch of `get_gpu_info` (src/xpec.py:372-381): the `lspci` listing
strategy is wrapped in a catch-all `try`/`except: pass`; an exception keeps
the entries appended before it and never escapes. -/
def get_gpu_info_linux (res : Except (PyExc × List GpuEntry) (List GpuEntry)) :
    List GpuEntry :=
  match res with
  | .ok gs => gs
  | .error (_, sofar) => sofar

/-- Linux branch of `get_disk_info` (src/xpec.py:478-491): the `lsblk` listing
strategy is wrapped in a catch-all `try`/`except: pass`; an exception keeps
the rows appended before it and never escapes. -/
def get_disk_info_linux (res : Except (PyExc × List Disk) (List Disk)) : List Disk :=
  match res with
  | .ok ds => ds
  | .error (_, sofar) => sofar

/-- Interpretation of the amended C1 claim: the uniform per-module size, which
is reported iff the module list is non-empty, every capacity parses to a
positive GB value, and all parsed capacities are equal. -/
def uniform_module_size (ms : List RamModule) : Option ℚ :=
  match ms.map (fun m => parse_gb m.capacity) with
  | [] => none
  | x :: rest =>
    if (x :: rest).all (fun y => 0 < y) ∧ rest.all (fun y => y = x) then some x else none

/-- Interpretation of the amended C1 claim: the uniform module speed, which is
reported iff at least one module's speed string contains a non-zero leading
number and all such numbers agree — independently of the capacities. -/
def uniform_module_speed (ms : List RamModule) : Option ℕ :=
  match (ms.filterMap (fun m => first_num m.speed)).filter (fun s => s ≠ 0) with
  | [] => none
  | s :: rest => if rest.all (fun x => x = s) then some s else none

theorem rheFrac_nonneg (a b : ℤ) (ha : 0 ≤ a) (hb : 0 < b) : 0 ≤ rheFrac a b := by
  have hf : 0 ≤ a / b := Int.ediv_nonneg ha (le_of_lt hb)
  unfold rheFrac
  dsimp only
  split_ifs <;> omega

theorem rheFrac_mono (a a' b : ℤ) (hb : 0 < b) (h : a ≤ a') :
    rheFrac a b ≤ rheFrac a' b := by
  have hfr : b * (a / b) + a % b = a := Int.ediv_add_emod a b
  have hfr' : b * (a' / b) + a' % b = a' := Int.ediv_add_emod a' b
  have hr0 : 0 ≤ a % b := Int.emod_nonneg a (ne_of_gt hb)
  have hr0' : 0 ≤ a' % b := Int.emod_nonneg a' (ne_of_gt hb)
  have hrb : a % b < b := Int.emod_lt_of_pos a hb
  have hrb' : a' % b < b := Int.emod_lt_of_pos a' hb
  have hff : a / b ≤ a' / b := Int.ediv_le_ediv hb h
  unfold rheFrac
  dsimp only
  rcases eq_or_lt_of_le hff with hEq | hLt
  · have hrr : a % b ≤ a' % b := by
      rw [hEq] at hfr
      omega
    split_ifs <;> omega
  · split_ifs <;> omega

theorem tenths_of_neg (n : ℤ) (h : n < 0) : tenths n = 0 := by
  unfold tenths
  rw [if_pos h]
  norm_num

theorem tenths_of_small (n : ℤ) (h0 : 0 ≤ n) (h : 20 * n < 2 ^ 30) : tenths n = 0 := by
  unfold tenths
  rw [if_neg (by omega : ¬ n < 0), if_pos h]

theorem tenths_of_large (n : ℤ) (_h0 : 0 ≤ n) (h : ¬ 20 * n < 2 ^ 30) :
    tenths n = rheFrac (10 * n) (2 ^ 30) := by
  unfold tenths
  rw [if_neg (by omega : ¬ n < 0), if_neg h]

theorem tenths_nonneg (n : ℤ) : 0 ≤ tenths n := by
  by_cases hn : n < 0
  · rw [tenths_of_neg n hn]
  · by_cases h2 : 20 * n < 2 ^ 30
    · rw [tenths_of_small n (by omega) h2]
    · rw [tenths_of_large n (by omega) h2]
      exact rheFrac_nonneg _ _ (by omega) (by norm_num)

theorem tenths_mono (a b : ℤ) (h : a ≤ b) : tenths a ≤ tenths b := by
  by_cases hb : b < 0
  · rw [tenths_of_neg a (by omega), tenths_of_neg b hb]
  · by_cases ha : a < 0
    · rw [tenths_of_neg a ha]
      exact tenths_nonneg b
    · by_cases h2b : 20 * b < 2 ^ 30
      · rw [tenths_of_small a (by omega) (by omega), tenths_of_small b (by omega) h2b]
      · by_cases h2a : 20 * a < 2 ^ 30
        · rw [tenths_of_small a (by omega) h2a]
          exact tenths_nonneg b
        · rw [tenths_of_large a (by omega) h2a, tenths_of_large b (by omega) h2b]
          exact rheFrac_mono _ _ _ (by norm_num) (by omega)

/-- C7: `_fmt_gb_from_bytes` renders `dec1_string (tenths n) ++ " GB"`, the
rendered numeric value `tenths` is monotone non-decreasing in the integer
input and never negative, `0` renders as `"0.0 GB"`, every negative input
renders exactly as `0` does (negative clamping), and every non-negative input
below `0.05 GB` (`20 * n < 2^30` bytes) renders as `"0.0 GB"`. -/
theorem C7_fmt_gb_props :
    (∀ n : ℤ, fmt_gb_from_bytes n = dec1_string (tenths n) ++ " GB")
    ∧ (∀ a b : ℤ, a ≤ b → tenths a ≤ tenths b)
    ∧ (∀ n : ℤ, 0 ≤ tenths n)
    ∧ fmt_gb_from_bytes 0 = "0.0 GB"
    ∧ (∀ n : ℤ, n < 0 → fmt_gb_from_bytes n = fmt_gb_from_bytes 0)
    ∧ (∀ n : ℤ, 0 ≤ n → 20 * n < 2 ^ 30 → fmt_gb_from_bytes n = "0.0 GB") := by
  refine ⟨fun n => rfl, tenths_mono, tenths_nonneg, by decide, ?_, ?_⟩
  · intro n hn
    have h1 : tenths n = tenths 0 := by
      rw [tenths_of_neg n hn, tenths_of_small 0 (by omega) (by norm_num)]
    unfold fmt_gb_from_bytes
    rw [h1]
  · intro n hn h
    unfold fmt_gb_from_bytes
    rw [tenths_of_small n hn h]
    decide

/-- Witness for C7 at concrete inputs. -/
theorem C7_fmt_gb_witness :
    ((-7 : ℤ) ≤ 2 ^ 31 ∧ tenths (-7) ≤ tenths (2 ^ 31))
    ∧ 0 ≤ tenths 12345
    ∧ ((-9 : ℤ) < 0 ∧ fmt_gb_from_bytes (-9) = fmt_gb_from_bytes 0)
    ∧ ((0 : ℤ) ≤ 7 ∧ 20 * (7 : ℤ) < 2 ^ 30 ∧ fmt_gb_from_bytes 7 = "0.0 GB") := by
  refine ⟨⟨by decide, C7_fmt_gb_props.2.1 _ _ (by decide)⟩,
    C7_fmt_gb_props.2.2.1 _,
    ⟨by decide, C7_fmt_gb_props.2.2.2.2.1 _ (by decide)⟩,
    ⟨by decide, by decide, C7_fmt_gb_props.2.2.2.2.2 _ (by decide) (by decide)⟩⟩

theorem match_gb_at_nil : match_gb_at [] = none := rfl

theorem scan_gb_of_no_match (l : List Char)
    (h : ∀ i, match_gb_at (l.drop i) = none) : scan_gb l = 0 := by
  induction l with
  | nil => rfl
  | cons c cs ih =>
    have h0 := h 0
    rw [List.drop_zero] at h0
    unfold scan_gb
    rw [h0]
    exact ih (fun i => by
      have hi := h (i + 1)
      rwa [List.drop_succ_cons] at hi)

theorem scan_gb_of_first_match (l : List Char) (i : ℕ) (v : ℚ)
    (hm : match_gb_at (l.drop i) = some v)
    (hn : ∀ j, j < i → match_gb_at (l.drop j) = none) : scan_gb l = v := by
  induction l generalizing i with
  | nil =>
    rw [List.drop_nil, match_gb_at_nil] at hm
    exact absurd hm (by simp)
  | cons c cs ih =>
    cases i with
    | zero =>
      rw [List.drop_zero] at hm
      unfold scan_gb
      rw [hm]
    | succ i' =>
      have h0 := hn 0 (Nat.succ_pos _)
      rw [List.drop_zero] at h0
      unfold scan_gb
      rw [h0]
      refine ih i' ?_ ?_
      · rwa [List.drop_succ_cons] at hm
      · intro j hj
        have hj1 := hn (j + 1) (by omega)
        rwa [List.drop_succ_cons] at hj1

/-- C9: `_parse_gb` yields `512.0` on `"512 GB"`, `0.0` on `"N/A"` and `1.5`
on `"1.5GB"`; a text at no position of which the number-before-GB regex
matches yields `0.0`; and when the regex matches at position `i` and at no
earlier position, the value of that leftmost match is returned. -/
theorem C9_parse_gb :
    parse_gb "512 GB" = 512 ∧ parse_gb "N/A" = 0 ∧ parse_gb "1.5GB" = 3 / 2
    ∧ (∀ l : List Char, (∀ i, match_gb_at (l.drop i) = none) → scan_gb l = 0)
    ∧ (∀ (l : List Char) (i : ℕ) (v : ℚ), match_gb_at (l.drop i) = some v →
        (∀ j, j < i → match_gb_at (l.drop j) = none) → scan_gb l = v) := by
  refine ⟨?_, by decide, ?_, scan_gb_of_no_match, scan_gb_of_first_match⟩
  · have h : parse_gb "512 GB" = mkRat 512 1 := by decide
    rw [h]
    norm_num [mkRat]
  · have h : parse_gb "1.5GB" = mkRat 15 10 := by decide
    rw [h]
    norm_num [mkRat]

/-- Witness for C9: the regex matches `"x1.5GB"` first at position 1, so the
scan returns that match's value; `"N/A"` has no match at any position. -/
theorem C9_parse_gb_witness :
    (match_gb_at ((String.data "x1.5GB").drop 1) = some (mkRat 15 10)
      ∧ scan_gb (String.data "x1.5GB") = mkRat 15 10)
    ∧ scan_gb (String.data "N/A") = 0 := by
  have hm : match_gb_at ((String.data "x1.5GB").drop 1) = some (mkRat 15 10) := by decide
  have hnone : ∀ i, match_gb_at ((String.data "N/A").drop i) = none := by
    intro i
    match i with
    | 0 => decide
    | 1 => decide
    | 2 => decide
    | n + 3 =>
      rw [List.drop_eq_nil_of_le (by simp : (String.data "N/A").length ≤ n + 3)]
      rfl
  refine ⟨⟨hm, C9_parse_gb.2.2.2.2 _ 1 _ hm ?_⟩, C9_parse_gb.2.2.2.1 _ hnone⟩
  intro j hj
  have hj0 : j = 0 := by omega
  subst hj0
  decide

theorem py_replace_aux_space_run (fuel : ℕ) :
    ∀ n : ℕ, n ≤ fuel →
      py_replace_aux [' ', ' '] [' '] fuel (List.replicate n ' ') =
        List.replicate ((n + 1) / 2) ' ' := by
  induction fuel with
  | zero =>
    intro n hn
    have hn0 : n = 0 := by omega
    subst hn0
    rfl
  | succ fuel ih =>
    intro n hn
    match n with
    | 0 => simp [py_replace_aux]
    | 1 => simp [py_replace_aux, List.isPrefixOf]
    | n + 2 =>
      rw [List.replicate_succ, List.replicate_succ]
      have hpre : List.isPrefixOf [' ', ' '] (' ' :: ' ' :: List.replicate n ' ') = true := by
        simp [List.isPrefixOf]
      have harith : (n + 2 + 1) / 2 = (n + 1) / 2 + 1 := by omega
      simp only [py_replace_aux, hpre, if_true, List.length_cons, List.drop_succ_cons,
        List.drop_zero, List.singleton_append]
      rw [show List.drop (([] : List Char).length + 1 + 1 - 1) (' ' :: List.replicate n ' ')
            = List.replicate n ' ' from by simp]
      rw [ih n (by omega), harith, List.replicate_succ]

/-- Counterexample to C8: on input `"a    b"` (four spaces) the single-pass
double-space replacement leaves `"a  b"`, which still contains two
consecutive space characters. -/
theorem C8_clean_cpu_counterexample :
    clean_cpu_model "a    b" = "a  b" ∧ substr "  " (clean_cpu_model "a    b") = true := by
  exact ⟨by decide, by decide⟩

/-- C8 (amended): `_clean_cpu_model` removes `"(R)"`, `"(TM)"` and `"CPU"` and
the case-insensitive suffix `"with Radeon Graphics"` in single left-to-right
passes and replaces non-overlapping pairs of spaces by single spaces in one
pass — a run of `n` spaces becomes `⌈n/2⌉` spaces — so the result may still
contain two consecutive spaces; concrete trademark/suffix removals behave as
specified. -/
theorem C8_clean_cpu_model_amended :
    (∀ n : ℕ, py_replace (String.data "  ") (String.data " ") (List.replicate n ' ') =
        List.replicate ((n + 1) / 2) ' ')
    ∧ clean_cpu_model "Intel(R) Core(TM) i7-9700K CPU @ 3.60GHz"
        = "Intel Core i7-9700K @ 3.60GHz"
    ∧ clean_cpu_model "AMD Ryzen 7 5800X with Radeon Graphics" = "AMD Ryzen 7 5800X" := by
  refine ⟨?_, by decide, by decide⟩
  intro n
  unfold py_replace
  rw [show (String.data "  ") = [' ', ' '] from rfl, show (String.data " ") = [' '] from rfl,
    List.length_replicate]
  exact py_replace_aux_space_run n n (le_refl n)

/-- Witness for C8 at `n = 4`: four spaces collapse to two. -/
theorem C8_clean_cpu_witness :
    py_replace (String.data "  ") (String.data " ") (List.replicate 4 ' ')
      = List.replicate 2 ' ' :=
  C8_clean_cpu_model_amended.1 4

/-- Counterexample to C2: tier 1 completes without raising but yields zero
disks; tier 2 is not entered (second component `false`) even though it would
yield a disk, and tier 3 is entered instead (third component `true`), so the
result is empty. -/
theorem C2_disk_tiers_counterexample :
    get_disk_info_windows [] false [⟨"PS disk", "500.0 GB", "SSD"⟩] false [] =
      ([], false, true) := by decide

/-- C2 (amended): tier 2 (PowerShell `Get-PhysicalDisk`) is entered iff
tier 1 (`MSFT_PhysicalDisk`) raises an exception — not when tier 1 merely
yields zero results; tier 3 (`Win32_DiskDrive`) is entered iff tier 1
completed with zero rows, or tier 1 raised and tier 2 either raised or left
the accumulated list empty; when tier 1 raised with no rows and tier 2
completes with rows, tier 2's rows are returned. -/
theorem C2_disk_tiers_amended :
    ∀ (d1 : List Disk) (r1 : Bool) (d2 : List Disk) (r2 : Bool) (d3 : List Disk),
      ((get_disk_info_windows d1 r1 d2 r2 d3).2.1 = r1)
      ∧ ((get_disk_info_windows d1 r1 d2 r2 d3).2.2 =
          (if r1 then (r2 || (d1 ++ d2).isEmpty) else d1.isEmpty))
      ∧ (r1 = false → d1 = [] → (get_disk_info_windows d1 r1 d2 r2 d3).1 = d3)
      ∧ (r1 = true → r2 = false → d1 = [] → d2 ≠ [] →
          (get_disk_info_windows d1 r1 d2 r2 d3).1 = d2) := by
  intro d1 r1 d2 r2 d3
  refine ⟨?_, ?_, ?_, ?_⟩
  · cases r1 <;> cases r2 <;>
      simp only [get_disk_info_windows] <;> split_ifs <;> simp_all
  · cases r1 <;> cases r2 <;>
      simp only [get_disk_info_windows, Bool.false_or, Bool.true_or, if_true, if_false] <;>
      split_ifs <;> simp_all
  · intro hr1 hd1
    subst hr1; subst hd1
    simp [get_disk_info_windows]
  · intro hr1 hr2 hd1 hd2
    subst hr1; subst hr2; subst hd1
    simp [get_disk_info_windows, List.isEmpty_iff, hd2]

/-- Witness for C2 at concrete tier outcomes: tier 1 raises with no rows,
tier 2 succeeds with one row, which is returned without entering tier 3. -/
theorem C2_disk_tiers_witness :
    (get_disk_info_windows [] true [⟨"PS disk", "500.0 GB", "SSD"⟩] false []).1 =
      [⟨"PS disk", "500.0 GB", "SSD"⟩] :=
  (C2_disk_tiers_amended [] true [⟨"PS disk", "500.0 GB", "SSD"⟩] false []).2.2.2
    rfl rfl rfl (by decide)

theorem ne_NA_of_long (s : String) (h : 4 ≤ s.length) : s ≠ "N/A" := by
  intro he
  rw [he] at h
  revert h
  decide

theorem storage_part_length (a d k : String) (hk : k.length = 7) :
    (a ++ k ++ d ++ " GB)").length = a.length + 7 + d.length + 4 := by
  rw [String.length_append, String.length_append, String.length_append, hk,
    show (" GB)" : String).length = 4 from by decide]

/-- C10: `_summarize_storage` returns the `"N/A"` sentinel exactly on the
empty disk list; a non-empty list in which no disk has `Type` exactly
`"SSD"` or `"HDD"` yields the empty string, and no non-empty list ever
yields `"N/A"`. -/
theorem C10_storage_summary :
    summarize_storage [] = "N/A"
    ∧ (∀ disks : List Disk, disks ≠ [] →
        (∀ d ∈ disks, d.typ ≠ "SSD" ∧ d.typ ≠ "HDD") → summarize_storage disks = "")
    ∧ (∀ disks : List Disk, disks ≠ [] → summarize_storage disks ≠ "N/A") := by
  refine ⟨by decide, ?_, ?_⟩
  · intro disks hne hall
    have hssd : disks.filter (fun d => d.typ = "SSD") = [] :=
      List.filter_eq_nil_iff.mpr (fun d hd => by simpa using (hall d hd).1)
    have hhdd : disks.filter (fun d => d.typ = "HDD") = [] :=
      List.filter_eq_nil_iff.mpr (fun d hd => by simpa using (hall d hd).2)
    simp only [summarize_storage, hssd, hhdd]
    rw [if_neg (by simpa using hne)]
    simp [py_join]
  · intro disks hne
    simp only [summarize_storage]
    rw [if_neg (by simpa using hne)]
    by_cases hs : (disks.filter (fun d => d.typ = "SSD")).isEmpty <;>
      by_cases hh : (disks.filter (fun d => d.typ = "HDD")).isEmpty <;>
      simp only [hs, hh, if_true, if_false, List.nil_append, List.append_nil,
        Bool.false_eq_true, List.singleton_append]
    · decide
    · refine ne_NA_of_long _ ?_
      simp only [py_join, List.foldl]
      rw [storage_part_length _ _ "x HDD (" (by decide)]
      omega
    · refine ne_NA_of_long _ ?_
      simp only [py_join, List.foldl]
      rw [storage_part_length _ _ "x SSD (" (by decide)]
      omega
    · refine ne_NA_of_long _ ?_
      simp only [py_join, List.foldl]
      rw [String.length_append, String.length_append,
        storage_part_length _ _ "x SSD (" (by decide),
        storage_part_length _ _ "x HDD (" (by decide)]
      omega

/-- Witness for C10: one disk of undetermined kind yields the empty string,
and the same list does not yield `"N/A"`. -/
theorem C10_storage_witness :
    summarize_storage [⟨"X", "500 GB", "N/A"⟩] = ""
    ∧ summarize_storage [⟨"X", "500 GB", "N/A"⟩] ≠ "N/A" :=
  ⟨C10_storage_summary.2.1 _ (by decide) (by decide),
   C10_storage_summary.2.2 _ (by decide)⟩

/-- Counterexample to C3: on Linux, a permission error while reading the DMI
board-vendor file is not caught (`except FileNotFoundError` only), so the
exception escapes `get_system_info`. -/
theorem C3_strategy_errors_counterexample :
    mobo_linux (.error .permissionDenied) (.ok "X") = .error .permissionDenied := rfl

/-- C3 (amended): across all five detection functions, exceptions inside a
detection strategy are caught at the strategy boundary.  In the Windows board
chain an exception in the registry strategy falls through to the WMI strategy
and the WMI strategy's result is returned; if both strategies fail the board
degrades to `"N/A"`.  An exception in the Windows or Linux RAM-module
strategy, the Linux GPU strategy or the Linux disk strategy is caught,
keeping the rows appended before the exception.  An exception in the CPU
strategy of either OS keeps the fields assigned before it, and a strategy
that threw before setting a model degrades it to
`platform.processor() or "N/A"`.  A WMI-enumeration exception in Windows GPU
detection falls back to the NVML list, else the DXGI list, and in Windows
disk detection a tier-1 exception followed by a successful tier 2 returns
tier 2's rows.  The one exception to the claim: the Linux board chain
degrades `FileNotFoundError` to `"N/A"` but catches only `FileNotFoundError`,
so any other exception (such as a permission error) escapes
`get_system_info`. -/
theorem C3_strategy_errors_amended :
    (∀ (e : PyExc) (manuW productW : String),
        mobo_windows (.error e) (.ok (manuW, productW)) =
          (if py_strip manuW ≠ "" ∨ py_strip productW ≠ "" then
            py_or_str (some (py_strip
              (short_vendor (py_strip manuW) ++ " " ++ py_strip productW))) "N/A"
          else "N/A"))
    ∧ (∀ e e' : PyExc, mobo_windows (.error e) (.error e') = "N/A")
    ∧ (∀ (t : String) (e : PyExc) (sofar : List RamModule),
        get_ram_info_windows t (.error (e, sofar)) = ⟨t, sofar⟩)
    ∧ (∀ rn : Except PyExc String, mobo_linux (.error .fileNotFound) rn = .ok "N/A")
    ∧ (∀ (e : PyExc) (rn : Except PyExc String), e ≠ .fileNotFound →
        mobo_linux (.error e) rn = .error e)
    ∧ (∀ (e : PyExc) (sofar : CpuInfo) (procStr : String),
        get_cpu_info (.error (e, sofar)) procStr =
          (if py_truthy_str sofar.model then sofar
           else { sofar with model := some (if procStr ≠ "" then procStr else "N/A") }))
    ∧ (∀ e : PyExc,
        (get_cpu_info (.error (e, ⟨none, none, none, none⟩)) "").model = some "N/A")
    ∧ (∀ (t : String) (e : PyExc) (sofar : List RamModule),
        get_ram_info_linux t (.error (e, sofar)) = ⟨t, sofar⟩)
    ∧ (∀ (e : PyExc) (sofar : List GpuEntry),
        get_gpu_info_linux (.error (e, sofar)) = sofar)
    ∧ (∀ (e : PyExc) (sofar : List Disk),
        get_disk_info_linux (.error (e, sofar)) = sofar)
    ∧ (∀ (e : PyExc) (nvml dxgi : List GpuEntry),
        get_gpu_info_windows (.error e) nvml dxgi = (if nvml.isEmpty then dxgi else nvml))
    ∧ (∀ (d2 d3 : List Disk), d2 ≠ [] →
        (get_disk_info_windows [] true d2 false d3).1 = d2) := by
  refine ⟨?_, ?_, ?_, fun rn => rfl, ?_, fun e sofar procStr => rfl, fun e => rfl,
    fun t e sofar => rfl, fun e sofar => rfl, fun e sofar => rfl,
    fun e nvml dxgi => rfl, ?_⟩
  · intro e manuW productW
    simp only [mobo_windows, py_truthy_str, Bool.false_eq_true, if_false]
    split_ifs with h
    · rfl
    · rfl
  · intro e e'
    rfl
  · intro t e sofar
    rfl
  · intro e rn he
    cases e with
    | fileNotFound => exact absurd rfl he
    | permissionDenied => rfl
    | other => rfl
  · intro d2 d3 hd2
    simp [get_disk_info_windows, List.isEmpty_iff, hd2]

/-- Witness for C3: registry strategy raises, WMI strategy succeeds with a
Gigabyte board, and the Windows chain returns the WMI-built name; a CPU
strategy that threw with nothing assigned degrades the model to `"N/A"`; a
GPU strategy exception keeps the entries appended so far; disk tier 2's
rows are returned after a tier-1 exception. -/
theorem C3_strategy_errors_witness :
    mobo_windows (.error .permissionDenied)
        (.ok ("Gigabyte Technology Co., Ltd.", "B450M DS3H")) = "Gigabyte B450M DS3H"
    ∧ mobo_linux (.error .other) (.ok "X") = .error .other
    ∧ (get_cpu_info (.error (.permissionDenied, ⟨none, none, none, none⟩)) "").model
        = some "N/A"
    ∧ get_gpu_info_linux (.error (.other, [⟨"GPU0", "N/A"⟩])) = [⟨"GPU0", "N/A"⟩]
    ∧ (get_disk_info_windows [] true [⟨"D", "1.0 GB", "SSD"⟩] false []).1
        = [⟨"D", "1.0 GB", "SSD"⟩] :=
  ⟨(C3_strategy_errors_amended.1 .permissionDenied _ _).trans (by decide),
   C3_strategy_errors_amended.2.2.2.2.1 .other _ (by decide),
   C3_strategy_errors_amended.2.2.2.2.2.2.1 .permissionDenied,
   C3_strategy_errors_amended.2.2.2.2.2.2.2.2.1 .other [⟨"GPU0", "N/A"⟩],
   C3_strategy_errors_amended.2.2.2.2.2.2.2.2.2.2.2 [⟨"D", "1.0 GB", "SSD"⟩] []
     (by decide)⟩

theorem takeWhile_append_all {α : Type} (p : α → Bool) (l1 l2 : List α)
    (h : ∀ x ∈ l1, p x = true) :
    (l1 ++ l2).takeWhile p = l1 ++ l2.takeWhile p := by
  induction l1 with
  | nil => simp
  | cons a l ih =>
    simp only [List.cons_append, List.takeWhile_cons, h a (by simp), if_true]
    rw [ih (fun x hx => h x (by simp [hx]))]

/-- C5: in Windows registry board detection, a `BaseBoardProduct` that trims
to the empty string or (case-insensitively) to one of the fixed placeholder
values is replaced by `SystemProductName`, the chosen product string has a
trailing `" (MS-<hex>)"` chipset code stripped, and the name is built from
the shortened vendor plus this product.  Second conjunct: the chipset
stripper removes exactly such a trailing code (plus preceding whitespace)
for every base string and non-empty hex-digit run. -/
theorem C5_board_placeholder :
    (∀ (manu product : String) (sysprod : Option String),
        (py_strip product = "" ∨ bad_tokens.contains (py_upper (py_strip product)) = true) →
        registry_mobo manu product sysprod =
          (if py_strip manu ≠ "" ∨ py_strip product ≠ "" then
            some (py_strip (short_vendor (py_strip manu) ++ " " ++
              (if py_or_str (Option.map py_strip sysprod) "" ≠ ""
               then strip_chipset (py_or_str (Option.map py_strip sysprod) "")
               else py_or_str (Option.map py_strip sysprod) "")))
          else none))
    ∧ (∀ (base hex : List Char), hex ≠ [] → hex.all is_hex_ci = true →
        strip_chipset (String.mk (base ++ [' ', '(', 'M', 'S', '-'] ++ hex ++ [')'])) =
          String.mk ((base.reverse.dropWhile is_py_space).reverse)) := by
  constructor
  · intro manu product sysprod h
    have hc : ¬ (py_strip product ≠ "" ∧
        ¬ (bad_tokens.contains (py_upper (py_strip product)) = true)) := by
      rcases h with h | h
      · simp [h]
      · exact fun hc => hc.2 h
    simp only [registry_mobo]
    rw [if_neg hc]
  · intro base hex hne hhex
    have hrev : (base ++ [' ', '(', 'M', 'S', '-'] ++ hex ++ [')']).reverse
        = ')' :: (hex.reverse ++ ('-' :: 'S' :: 'M' :: '(' :: ' ' :: base.reverse)) := by
      simp [List.reverse_append]
    unfold strip_chipset
    rw [show (String.mk (base ++ [' ', '(', 'M', 'S', '-'] ++ hex ++ [')'])).data
          = base ++ [' ', '(', 'M', 'S', '-'] ++ hex ++ [')'] from rfl]
    rw [hrev]
    have htw : (hex.reverse ++ ('-' :: 'S' :: 'M' :: '(' :: ' ' :: base.reverse)).takeWhile
        is_hex_ci = hex.reverse := by
      rw [takeWhile_append_all is_hex_ci hex.reverse _
        (fun x hx => by
          rw [List.all_eq_true] at hhex
          exact hhex x (List.mem_reverse.mp hx))]
      rw [show ('-' :: 'S' :: 'M' :: '(' :: ' ' :: base.reverse).takeWhile is_hex_ci
            = [] from by simp [List.takeWhile_cons, is_hex_ci]]
      simp
    simp only [chip_suffix_parse, htw]
    rw [if_neg (by simp [List.isEmpty_iff, hne])]
    rw [List.drop_left]
    simp [is_py_space]

/-- Witness for C5: the spec's example placeholder falls back to the system
product name, and a concrete `" (MS-7E49)"` suffix is stripped. -/
theorem C5_board_witness :
    registry_mobo "ASUSTeK COMPUTER INC." "TO BE FILLED BY O.E.M."
        (some "ROG STRIX B550-F GAMING") = some "ASUS ROG STRIX B550-F GAMING"
    ∧ strip_chipset "PRO B650-S WIFI (MS-7E49)" = "PRO B650-S WIFI" := by
  constructor
  · exact (C5_board_placeholder.1 _ _ _ (Or.inr (by decide))).trans (by decide)
  · have hstr : "PRO B650-S WIFI (MS-7E49)" =
        String.mk ("PRO B650-S WIFI".data ++ [' ', '(', 'M', 'S', '-'] ++
          ['7', 'E', '4', '9'] ++ [')']) := by decide
    rw [hstr]
    exact (C5_board_placeholder.2 _ _ (by decide) (by decide)).trans (by decide)

/-- C4: for each WMI video controller with a non-empty name not containing
`"Microsoft"`, the merged VRAM prefers a bidirectional-substring NVML match,
else a DXGI match, else a truthy `AdapterRAM` formatted to GB, else `"N/A"`;
adapters whose name contains `"Microsoft"` are dropped; and when the WMI
enumeration raises, the whole result falls back to the NVML list if
non-empty, else to the DXGI list. -/
theorem C4_gpu_merge :
    (∀ (nvml dxgi : List GpuEntry) (a : WmiAdapter) (m : GpuEntry),
        a.name ≠ "" → substr "Microsoft" a.name = false →
        nvml.find? (gpu_name_match a.name) = some m → m.vram ≠ "" →
        merge_entry nvml dxgi a = some ⟨a.name, m.vram⟩)
    ∧ (∀ (nvml dxgi : List GpuEntry) (a : WmiAdapter) (m : GpuEntry),
        a.name ≠ "" → substr "Microsoft" a.name = false →
        nvml.find? (gpu_name_match a.name) = none →
        dxgi.find? (gpu_name_match a.name) = some m → m.vram ≠ "" →
        merge_entry nvml dxgi a = some ⟨a.name, m.vram⟩)
    ∧ (∀ (nvml dxgi : List GpuEntry) (a : WmiAdapter) (r : ℤ),
        a.name ≠ "" → substr "Microsoft" a.name = false →
        nvml.find? (gpu_name_match a.name) = none →
        dxgi.find? (gpu_name_match a.name) = none →
        a.adapterRAM = some r → r ≠ 0 →
        merge_entry nvml dxgi a = some ⟨a.name, fmt_gb_from_bytes r⟩)
    ∧ (∀ (nvml dxgi : List GpuEntry) (a : WmiAdapter),
        a.name ≠ "" → substr "Microsoft" a.name = false →
        nvml.find? (gpu_name_match a.name) = none →
        dxgi.find? (gpu_name_match a.name) = none →
        (a.adapterRAM = none ∨ a.adapterRAM = some 0) →
        merge_entry nvml dxgi a = some ⟨a.name, "N/A"⟩)
    ∧ (∀ (nvml dxgi : List GpuEntry) (a : WmiAdapter),
        substr "Microsoft" a.name = true → merge_entry nvml dxgi a = none)
    ∧ (∀ (e : PyExc) (nvml dxgi : List GpuEntry), nvml ≠ [] →
        get_gpu_info_windows (.error e) nvml dxgi = nvml)
    ∧ (∀ (e : PyExc) (dxgi : List GpuEntry),
        get_gpu_info_windows (.error e) [] dxgi = dxgi) := by
  have hfmt_ne : ∀ r : ℤ, fmt_gb_from_bytes r ≠ "" := by
    intro r heq
    have := congrArg String.length heq
    rw [fmt_gb_from_bytes, String.length_append] at this
    simp [show (" GB" : String).length = 3 from by decide] at this
  refine ⟨?_, ?_, ?_, ?_, ?_, ?_, ?_⟩
  · intro nvml dxgi a m hn hms hfind hv
    simp [merge_entry, choose_vram, hn, hms, hfind, py_truthy_str, hv, py_or_str]
  · intro nvml dxgi a m hn hms hfn hfd hv
    simp [merge_entry, choose_vram, hn, hms, hfn, hfd, py_truthy_str, hv, py_or_str]
  · intro nvml dxgi a r hn hms hfn hfd har hr
    simp [merge_entry, choose_vram, hn, hms, hfn, hfd, py_truthy_str, har, hr,
      py_or_str, hfmt_ne r]
  · intro nvml dxgi a hn hms hfn hfd har
    rcases har with har | har <;>
      simp [merge_entry, choose_vram, hn, hms, hfn, hfd, py_truthy_str, har, py_or_str]
  · intro nvml dxgi a hms
    simp [merge_entry, hms]
  · intro e nvml dxgi hne
    simp [get_gpu_info_windows, List.isEmpty_iff, hne]
  · intro e dxgi
    simp [get_gpu_info_windows]

/-- Witness for C4: an RTX 3080 adapter takes the NVML VRAM although its
`AdapterRAM` is zero; with no NVML/DXGI match a non-zero `AdapterRAM` is
formatted; a WMI failure falls back to the NVML list. -/
theorem C4_gpu_merge_witness :
    merge_entry [⟨"GeForce RTX 3080", "10.0 GB"⟩] [] ⟨"NVIDIA GeForce RTX 3080", some 0⟩
        = some ⟨"NVIDIA GeForce RTX 3080", "10.0 GB"⟩
    ∧ merge_entry [] [] ⟨"Intel Arc A770", some 17179869184⟩
        = some ⟨"Intel Arc A770", "16.0 GB"⟩
    ∧ get_gpu_info_windows (.error .other) [⟨"N", "8.0 GB"⟩] [⟨"D", "4.0 GB"⟩]
        = [⟨"N", "8.0 GB"⟩] := by
  refine ⟨?_, ?_, ?_⟩
  · exact C4_gpu_merge.1 [⟨"GeForce RTX 3080", "10.0 GB"⟩] []
      ⟨"NVIDIA GeForce RTX 3080", some 0⟩ ⟨"GeForce RTX 3080", "10.0 GB"⟩
      (by decide) (by decide) (by decide) (by decide)
  · exact (C4_gpu_merge.2.2.1 [] [] ⟨"Intel Arc A770", some 17179869184⟩ 17179869184
      (by decide) (by decide) rfl rfl rfl (by decide)).trans (by decide)
  · exact C4_gpu_merge.2.2.2.2.2.1 .other [⟨"N", "8.0 GB"⟩] [⟨"D", "4.0 GB"⟩] (by decide)

theorem py_max_by_le (f : GpuEntry → ℚ) (xs : List GpuEntry) :
    ∀ cur : GpuEntry, f cur ≤ f (py_max_by f cur xs)
      ∧ ∀ x ∈ xs, f x ≤ f (py_max_by f cur xs) := by
  induction xs with
  | nil => exact fun cur => ⟨le_refl _, by simp⟩
  | cons x xs ih =>
    intro cur
    by_cases hlt : f cur < f x
    · have h := ih x
      simp only [py_max_by, if_pos hlt]
      refine ⟨le_trans (le_of_lt hlt) h.1, ?_⟩
      intro y hy
      rcases List.mem_cons.mp hy with hy | hy
      · subst hy
        exact h.1
      · exact h.2 y hy
    · have h := ih cur
      simp only [py_max_by, if_neg hlt]
      refine ⟨h.1, ?_⟩
      intro y hy
      rcases List.mem_cons.mp hy with hy | hy
      · subst hy
        exact le_trans (le_of_not_lt hlt) h.1
      · exact h.2 y hy

theorem py_max_by_first (f : GpuEntry → ℚ) (xs : List GpuEntry) :
    ∀ cur : GpuEntry, ∃ l1 l2, cur :: xs = l1 ++ py_max_by f cur xs :: l2
      ∧ ∀ y ∈ l1, f y < f (py_max_by f cur xs) := by
  induction xs with
  | nil => exact fun cur => ⟨[], [], rfl, by simp⟩
  | cons x xs ih =>
    intro cur
    by_cases hlt : f cur < f x
    · obtain ⟨l1, l2, hsplit, hstrict⟩ := ih x
      simp only [py_max_by, if_pos hlt]
      refine ⟨cur :: l1, l2, ?_, ?_⟩
      · rw [List.cons_append, ← hsplit]
      · intro y hy
        rcases List.mem_cons.mp hy with hy | hy
        · subst hy
          exact lt_of_lt_of_le hlt (py_max_by_le f xs x).1
        · exact hstrict y hy
    · obtain ⟨l1, l2, hsplit, hstrict⟩ := ih cur
      simp only [py_max_by, if_neg hlt]
      cases l1 with
      | nil =>
        simp only [List.nil_append] at hsplit
        refine ⟨[], x :: l2, ?_, by simp⟩
        rw [List.nil_append]
        rw [List.cons.injEq] at hsplit ⊢
        exact ⟨hsplit.1, by rw [← hsplit.2]⟩
      | cons z l1' =>
        simp only [List.cons_append, List.cons.injEq] at hsplit
        obtain ⟨hz, hxs⟩ := hsplit
        refine ⟨cur :: x :: l1', l2, ?_, ?_⟩
        · simp only [List.cons_append, List.cons.injEq]
          exact ⟨trivial, trivial, hxs⟩
        · intro y hy
          rcases List.mem_cons.mp hy with hy | hy
          · subst hy
            have := hstrict z (by simp)
            rwa [← hz] at this
          · rcases List.mem_cons.mp hy with hy | hy
            · subst hy
              have hcur := hstrict z (by simp)
              rw [← hz] at hcur
              exact lt_of_le_of_lt (le_of_not_lt hlt) hcur
            · exact hstrict y (by simp [hy])

/-- C6: `_choose_primary_gpu` returns the `{"N/A","N/A"}` sentinel on the
empty list; on a non-empty list it returns an element whose `_parse_gb`-key
is maximal, and every element strictly before it in list order has a strictly
smaller key (first maximum wins ties). -/
theorem C6_choose_primary_gpu :
    choose_primary_gpu [] = ⟨"N/A", "N/A"⟩
    ∧ ∀ l : List GpuEntry, l ≠ [] →
        (∀ x ∈ l, gpu_key x ≤ gpu_key (choose_primary_gpu l))
        ∧ ∃ l1 l2, l = l1 ++ choose_primary_gpu l :: l2
            ∧ ∀ y ∈ l1, gpu_key y < gpu_key (choose_primary_gpu l) := by
  refine ⟨rfl, ?_⟩
  intro l hne
  cases l with
  | nil => exact absurd rfl hne
  | cons g gs =>
    constructor
    · intro x hx
      rcases List.mem_cons.mp hx with hx | hx
      · subst hx
        exact (py_max_by_le gpu_key gs x).1
      · exact (py_max_by_le gpu_key gs g).2 x hx
    · exact py_max_by_first gpu_key gs g

/-- Witness for C6: on `[4 GB, 8 GB]` the chosen GPU is the 8 GB entry, it is
maximal, and the 4 GB entry before it has a strictly smaller key. -/
theorem C6_choose_primary_gpu_witness :
    choose_primary_gpu [⟨"A", "4 GB"⟩, ⟨"B", "8 GB"⟩] = ⟨"B", "8 GB"⟩
    ∧ (([⟨"A", "4 GB"⟩, ⟨"B", "8 GB"⟩] : List GpuEntry) ≠ []
        ∧ ∀ x ∈ ([⟨"A", "4 GB"⟩, ⟨"B", "8 GB"⟩] : List GpuEntry),
            gpu_key x ≤ gpu_key (choose_primary_gpu [⟨"A", "4 GB"⟩, ⟨"B", "8 GB"⟩])) := by
  refine ⟨by decide, by decide, ?_⟩
  exact (C6_choose_primary_gpu.2 [⟨"A", "4 GB"⟩, ⟨"B", "8 GB"⟩] (by decide)).1

/-- Counterexample to C1: the second module's speed is the undetermined
`"N/A"`, yet the summary still reports the uniform per-module size and the
single determined speed instead of falling back to a generic module count. -/
theorem C1_ram_summary_counterexample :
    summarize_ram ⟨"16.0 GB",
        [⟨1, "Corsair", "8.0 GB", "3200 MHz", "P1"⟩,
         ⟨2, "Corsair", "8.0 GB", "N/A", "P2"⟩]⟩ =
      "Total: 16.0 GB (2x8 GB) @ 3200 MHz" := by decide

theorem str_sep_paren (T R : String) : T ++ " " ++ ("(" ++ R) = T ++ (" (" ++ R) := by
  rw [String.append_assoc, ← String.append_assoc " " "(" R]
  rfl

theorem str_sep_at (T R : String) : T ++ " " ++ ("@ " ++ R) = T ++ (" @ " ++ R) := by
  rw [String.append_assoc, ← String.append_assoc " " "@ " R]
  rfl

/-- C1 (amended): `_summarize_ram` always starts with the total; the
per-module size `"(<n>x<size> GB)"` appears iff the module list is non-empty,
every capacity parses to a positive GB value and all parsed capacities agree
(else `"(<n> modules)"` appears); independently, the speed suffix
`"@ <s> MHz"` appears iff at least one module speed contains a non-zero
number and all such numbers agree — in particular modules with undetermined
speed are ignored rather than suppressing the suffix. -/
theorem C1_ram_summary_amended (r : RamInfo) :
    summarize_ram r =
      "Total: " ++ r.total
      ++ (if r.modules.isEmpty then ""
          else
            match uniform_module_size r.modules with
            | some v => " (" ++ toString r.modules.length ++ "x" ++ toString (rheQ v) ++ " GB)"
            | none => " (" ++ toString r.modules.length ++ " modules)")
      ++ (match uniform_module_speed r.modules with
          | some s => " @ " ++ toString s ++ " MHz"
          | none => "") := by
  obtain ⟨total, modules⟩ := r
  cases modules with
  | nil =>
    simp [summarize_ram, uniform_module_speed, py_join]
  | cons m ms =>
    simp only [summarize_ram, uniform_module_size, uniform_module_speed, List.map_cons,
      List.isEmpty_cons, List.length_cons]
    have hfm : List.filterMap id
        (first_num m.speed :: List.map (fun m => first_num m.speed) ms)
        = List.filterMap (fun m => first_num m.speed) (m :: ms) := by
      have h1 : first_num m.speed :: List.map (fun m => first_num m.speed) ms
          = List.map (fun m => first_num m.speed) (m :: ms) := rfl
      rw [h1, List.filterMap_map]
      rfl
    rw [hfm]
    have hlen : ms.length + 1 ≠ 0 := Nat.succ_ne_zero _
    have hs0 : ∀ s srest, List.filter (fun s => decide (s ≠ 0))
        (List.filterMap (fun m => first_num m.speed) (m :: ms)) = s :: srest →
        ¬ (s = 0) := by
      intro s srest hU
      have hsmem : s ∈ List.filter (fun s => decide (s ≠ 0))
          (List.filterMap (fun m => first_num m.speed) (m :: ms)) := by
        rw [hU]
        exact List.mem_cons_self _ _
      simpa using (List.mem_filter.mp hsmem).2
    by_cases hall :
        ((parse_gb m.capacity :: List.map (fun m => parse_gb m.capacity) ms).all
          fun x => decide (0 < x)) = true
    · have hp0 : ¬ (parse_gb m.capacity = 0) := by
        have h1 := hall
        rw [List.all_cons, Bool.and_eq_true] at h1
        exact (of_decide_eq_true h1.1).ne'
      by_cases heqp :
          ((List.map (fun m => parse_gb m.capacity) ms).all
            fun y => decide (y = parse_gb m.capacity)) = true
      · cases hU : List.filter (fun s => decide (s ≠ 0))
            (List.filterMap (fun m => first_num m.speed) (m :: ms)) with
        | nil =>
          simp only [hall, heqp, hlen, hU, ne_eq, hp0, not_false_eq_true, and_self,
            if_true, true_and, and_true, Bool.false_eq_true, if_false]
          apply String.ext
          simp [py_join, String.data_append, List.append_assoc]
        | cons s srest =>
          by_cases hseq : (srest.all fun x => decide (x = s)) = true
          · simp only [hall, heqp, hlen, hU, hseq, ne_eq, hp0, hs0 s srest hU,
              not_false_eq_true, and_self, if_true, true_and, and_true,
              Bool.false_eq_true, if_false]
            apply String.ext
            simp [py_join, String.data_append, List.append_assoc]
          · simp only [hall, heqp, hlen, hU, hseq, ne_eq, hp0, not_false_eq_true,
              and_self, if_true, if_false, true_and, and_true, Bool.false_eq_true]
            apply String.ext
            simp [py_join, String.data_append, List.append_assoc]
      · cases hU : List.filter (fun s => decide (s ≠ 0))
            (List.filterMap (fun m => first_num m.speed) (m :: ms)) with
        | nil =>
          simp only [hall, heqp, hlen, hU, ne_eq, not_false_eq_true, and_self, if_true,
            if_false, true_and, and_true, and_false, false_and, Bool.false_eq_true]
          apply String.ext
          simp [py_join, String.data_append, List.append_assoc]
        | cons s srest =>
          by_cases hseq : (srest.all fun x => decide (x = s)) = true
          · simp only [hall, heqp, hlen, hU, hseq, hs0 s srest hU, ne_eq,
              not_false_eq_true, and_self, if_true, if_false, true_and, and_true,
              and_false, false_and, Bool.false_eq_true]
            apply String.ext
            simp [py_join, String.data_append, List.append_assoc]
          · simp only [hall, heqp, hlen, hU, hseq, ne_eq, not_false_eq_true, and_self,
              if_true, if_false, true_and, and_true, and_false, false_and,
              Bool.false_eq_true]
            apply String.ext
            simp [py_join, String.data_append, List.append_assoc]
    · cases hU : List.filter (fun s => decide (s ≠ 0))
          (List.filterMap (fun m => first_num m.speed) (m :: ms)) with
      | nil =>
        simp only [hall, hlen, hU, ne_eq, not_false_eq_true, if_true, if_false,
          true_and, and_true, and_false, false_and, Bool.false_eq_true]
        apply String.ext
        simp [py_join, String.data_append, List.append_assoc]
      | cons s srest =>
        by_cases hseq : (srest.all fun x => decide (x = s)) = true
        · simp only [hall, hlen, hU, hseq, hs0 s srest hU, ne_eq, not_false_eq_true,
            if_true, if_false, true_and, and_true, and_false, false_and,
            Bool.false_eq_true]
          apply String.ext
          simp [py_join, String.data_append, List.append_assoc]
        · simp only [hall, hlen, hU, hseq, ne_eq, not_false_eq_true, if_true, if_false,
            true_and, and_true, and_false, false_and, Bool.false_eq_true]
          apply String.ext
          simp [py_join, String.data_append, List.append_assoc]

/-- Witness for C1 at a fully uniform module list: the amended formula
evaluates to the expected summary line. -/
theorem C1_ram_summary_witness :
    summarize_ram ⟨"32.0 GB",
        [⟨1, "G.Skill", "16.0 GB", "3000 MHz", "PA"⟩,
         ⟨2, "G.Skill", "16.0 GB", "3000 MHz", "PB"⟩]⟩ =
      "Total: 32.0 GB (2x16 GB) @ 3000 MHz" :=
  (C1_ram_summary_amended _).trans (by decide)
